import Mathlib

/-
Verification of the PWA icon generator (`generate-icons.py`).

The script is a linear pipeline: decode the source logo, compute a crop box
around the image centre, force it square, clamp it to the image bounds, crop,
pad the crop onto a transparent square canvas, and then for each configured
size resize the square onto an opaque background and flatten to RGB.

Modelling notes.
* Rasters are modelled as a pair of dimensions together with a total pixel
  lookup function (`Img`); all pipeline operations only ever read in-bounds
  coordinates, which the theorems below make precise.
* Python float arithmetic (the literals `0.4`, `0.9`, `1.1`, `0.10`) is
  modelled by exact rational arithmetic over `ℚ`; Python `int()` truncation
  toward zero is `pyInt`, and Python floor division `//` on integers is `ℤ`
  division (`Int.ediv`), which has the same rounding.
* Pillow's `paste` with an RGBA mask blends every band with the mask's alpha
  using the `MULDIV255` rounding scheme from the Pillow C sources; that exact
  integer formula is used here.
* Pillow's `resize(…, LANCZOS)` returns a raster of exactly the requested
  dimensions; the Lanczos convolution weights are floating-point and are not
  modelled pixel-exactly.  `resize` below has faithful output dimensions and a
  deterministic in-bounds sampling, which is all the stated claims depend on.
-/

set_option maxRecDepth 8000

namespace GenIcons

/-- An RGBA pixel; channel values are naturals, `0 ≤ c ≤ 255` for well-formed
rasters. -/
structure RGBA where
  r : ℕ
  g : ℕ
  b : ℕ
  a : ℕ
  deriving DecidableEq

/-- A raster image: dimensions and a total pixel lookup. -/
structure Img where
  width : ℕ
  height : ℕ
  pix : ℕ → ℕ → RGBA

/-- Pillow `Image.new("RGBA", (w, h), c)`: a constant raster. -/
def imageNew (w h : ℕ) (c : RGBA) : Img := ⟨w, h, fun _ _ => c⟩

/-- Pillow's `MULDIV255(x, y)` macro: the rounding approximation of
`x * y / 255` used by `paste` blending. -/
def muldiv255 (x y : ℕ) : ℕ := ((x * y + 128) / 256 + (x * y + 128)) / 256

/-- Pillow's per-band `BLEND(mask, dstval, srcval)`. -/
def blendChannel (m d s : ℕ) : ℕ := muldiv255 d (255 - m) + muldiv255 s m

/-- Blend a source pixel over a destination pixel with mask value `m`
(every band is blended, alpha included, as Pillow does for RGBA pastes). -/
def blendPix (m : ℕ) (d s : RGBA) : RGBA :=
  ⟨blendChannel m d.r s.r, blendChannel m d.g s.g,
   blendChannel m d.b s.b, blendChannel m d.a s.a⟩

/-- Pillow `dst.paste(src, (px, py), src)` for RGBA `dst`: inside the pasted region
every band is blended against `dst` using `src`'s own alpha band as the mask;
outside it `dst` is unchanged. -/
def paste (dst src : Img) (px py : ℕ) : Img :=
  ⟨dst.width, dst.height, fun x y =>
    if px ≤ x ∧ x < px + src.width ∧ py ≤ y ∧ y < py + src.height then
      blendPix (src.pix (x - px) (y - py)).a (dst.pix x y) (src.pix (x - px) (y - py))
    else dst.pix x y⟩

/-- Pillow `Image.new("RGB", (w, h), c)`: an RGB raster stores no alpha band, which is
modelled by keeping every alpha at 255. -/
def imageNewRGB (w h : ℕ) (c : RGBA) : Img := ⟨w, h, fun _ _ => ⟨c.r, c.g, c.b, 255⟩⟩

/-- Pillow `dst.paste(src, (px, py), src)` for RGB `dst`: the three colour bands are
blended by the mask; the result stores no alpha (modelled as 255). -/
def pasteRGB (dst src : Img) (px py : ℕ) : Img :=
  ⟨dst.width, dst.height, fun x y =>
    if px ≤ x ∧ x < px + src.width ∧ py ≤ y ∧ y < py + src.height then
      ⟨blendChannel (src.pix (x - px) (y - py)).a (dst.pix x y).r (src.pix (x - px) (y - py)).r,
       blendChannel (src.pix (x - px) (y - py)).a (dst.pix x y).g (src.pix (x - px) (y - py)).g,
       blendChannel (src.pix (x - px) (y - py)).a (dst.pix x y).b (src.pix (x - px) (y - py)).b,
       255⟩
    else dst.pix x y⟩

/-- Pillow `img.crop((l, t, r, b))`.  The script only crops with the clamped box,
which satisfies `0 ≤ l ≤ r ≤ width` and `0 ≤ t ≤ b ≤ height`, so the result
has dimensions `(r - l) × (b - t)` and reads the source at the offset. -/
def cropImg (src : Img) (l t r b : ℤ) : Img :=
  ⟨(r - l).toNat, (b - t).toNat, fun x y => src.pix (l.toNat + x) (t.toNat + y)⟩

/-- Pillow `img.resize((nw, nh), LANCZOS)`: output dimensions are exactly the
requested ones; sampling is a deterministic in-bounds lookup (the Lanczos
kernel weights are not modelled, see the header note). -/
def resize (src : Img) (nw nh : ℕ) : Img :=
  ⟨nw, nh, fun x y => src.pix (x * src.width / nw) (y * src.height / nh)⟩

/-- Configuration `BACKGROUND_COLOR = (10, 10, 10, 255)`. -/
def BACKGROUND_COLOR : RGBA := ⟨10, 10, 10, 255⟩

/-- Configuration `OUTPUT_DIR = "image"`. -/
def OUTPUT_DIR : String := "image"

/-- Configuration `ICON_SIZES = [72, 96, 128, 144, 152, 192, 384, 512]`. -/
def ICON_SIZES : List ℕ := [72, 96, 128, 144, 152, 192, 384, 512]

/-- Python `int()` applied to a real value truncates toward zero. -/
def pyInt (q : ℚ) : ℤ := if 0 ≤ q then ⌊q⌋ else ⌈q⌉

/-- A crop box `(left, top, right, bottom)` as passed to `Image.crop`. -/
structure Box where
  left : ℤ
  top : ℤ
  right : ℤ
  bottom : ℤ
  deriving DecidableEq

/-- Line 27: `center_x = orig_width // 2`. -/
def center_x (w : ℕ) : ℤ := (w : ℤ) / 2

/-- Line 28: `center_y = orig_height // 2`. -/
def center_y (h : ℕ) : ℤ := (h : ℤ) / 2

/-- Line 32: `crop_size = min(orig_height, orig_width * 0.4)`. -/
def crop_size (w h : ℕ) : ℚ := min (h : ℚ) ((w : ℚ) * 0.4)

/-- Line 33: `half_crop = int(crop_size // 2)`: floor division by 2 (an integral value)
followed by `int()`. -/
def half_crop (w h : ℕ) : ℤ := pyInt ((⌊crop_size w h / 2⌋ : ℤ) : ℚ)

/-- Lines 36–39: the initial crop box, horizontally centred with a vertical
bias (`top` uses factor 0.9 and `bottom` factor 1.1 of `half_crop`). -/
def initBox (w h : ℕ) : Box :=
  { left := center_x w - half_crop w h
    top := pyInt ((center_y h : ℚ) - (half_crop w h : ℚ) * 0.9)
    right := center_x w + half_crop w h
    bottom := pyInt ((center_y h : ℚ) + (half_crop w h : ℚ) * 1.1) }

/-- Lines 41–51: force the box square by symmetrically extending the shorter
dimension (Python `//` is `ℤ` division here). -/
def makeSquare (bx : Box) : Box :=
  let crop_width := bx.right - bx.left
  let crop_height := bx.bottom - bx.top
  if crop_height > crop_width then
    { bx with left := bx.left - (crop_height - crop_width) / 2
              right := bx.right + (crop_height - crop_width) / 2 }
  else if crop_width > crop_height then
    { bx with top := bx.top - (crop_width - crop_height) / 2
              bottom := bx.bottom + (crop_width - crop_height) / 2 }
  else bx

/-- Lines 54–57: clamp the box to the image bounds. -/
def clampBox (w h : ℕ) (bx : Box) : Box :=
  { left := max 0 bx.left
    top := max 0 bx.top
    right := min (w : ℤ) bx.right
    bottom := min (h : ℤ) bx.bottom }

/-- The box actually passed to `Image.crop` (line 60). -/
def cropBox (w h : ℕ) : Box := clampBox w h (makeSquare (initBox w h))

/-- Line 60: `cropped = original.crop((left, top, right, bottom))`. -/
def cropped (original : Img) : Img :=
  cropImg original (cropBox original.width original.height).left
    (cropBox original.width original.height).top
    (cropBox original.width original.height).right
    (cropBox original.width original.height).bottom

/-- Line 64: `max_dim = max(cropped_w, cropped_h)`. -/
def max_dim (cr : Img) : ℕ := max cr.width cr.height

/-- Line 68: `paste_x = (max_dim - cropped_w) // 2`. -/
def paste_x (cr : Img) : ℕ := (max_dim cr - cr.width) / 2

/-- Line 69: `paste_y = (max_dim - cropped_h) // 2`. -/
def paste_y (cr : Img) : ℕ := (max_dim cr - cr.height) / 2

/-- Lines 62–70: pad the cropped raster onto a fully transparent square canvas
of edge `max_dim`, pasted at `(paste_x, paste_y)` with itself as the mask. -/
def squareOf (cr : Img) : Img :=
  paste (imageNew (max_dim cr) (max_dim cr) ⟨0, 0, 0, 0⟩) cr (paste_x cr) (paste_y cr)

/-- Line 80: `padding_percent = 0.10`. -/
def padding_percent : ℚ := 0.10

/-- Line 81: `logo_size = int(size * (1 - padding_percent * 2))`. -/
def logo_size (size : ℕ) : ℤ := pyInt ((size : ℚ) * (1 - padding_percent * 2))

/-- Line 87: `offset = (size - logo_size) // 2`. -/
def offset (size : ℕ) : ℤ := ((size : ℤ) - logo_size size) / 2

/-- Lines 77–95: one output icon: an opaque background canvas, the resized
working square pasted centred with transparency, then flattened to RGB. -/
def makeIcon (square : Img) (size : ℕ) : Img :=
  pasteRGB (imageNewRGB size size BACKGROUND_COLOR)
    (paste (imageNew size size BACKGROUND_COLOR)
      (resize square (logo_size size).toNat (logo_size size).toNat)
      (offset size).toNat (offset size).toNat)
    0 0

/-- Line 98: `os.path.join(OUTPUT_DIR, f"icon-{size}x{size}.png")`. -/
def output_path (size : ℕ) : String :=
  OUTPUT_DIR ++ "/" ++ ("icon-" ++ toString size ++ "x" ++ toString size ++ ".png")

/-- Function `create_pwa_icons`: the full pipeline, returning the written files as
(path, raster) pairs in order. -/
def create_pwa_icons (original : Img) : List (String × Img) :=
  ICON_SIZES.map fun size =>
    (output_path size, makeIcon (squareOf (cropped original)) size)

/-- Closed natural-number form of `half_crop` (proof helper). -/
def hcN (w h : ℕ) : ℕ := if 5 * h ≤ 2 * w then h / 2 else w / 5

theorem pyInt_intCast (n : ℤ) : pyInt (n : ℚ) = n := by
  unfold pyInt
  split <;> simp

theorem pyInt_of_nonneg {q : ℚ} (h : 0 ≤ q) : pyInt q = ⌊q⌋ := by
  unfold pyInt
  simp [h]

theorem half_crop_eq (w h : ℕ) : half_crop w h = (hcN w h : ℤ) := by
  unfold half_crop crop_size
  rw [pyInt_intCast]
  have h04 : (0.4 : ℚ) = 2 / 5 := by norm_num
  rcases le_total (h : ℚ) ((w : ℚ) * 0.4) with hle | hle
  · rw [min_eq_left hle]
    have e1 : (h : ℚ) / 2 = ((h : ℕ) : ℚ) / ((2 : ℕ) : ℚ) := by norm_num
    rw [e1, Rat.floor_natCast_div_natCast]
    have hcond : 5 * h ≤ 2 * w := by
      have h5 : (5 : ℚ) * h ≤ 2 * w := by rw [h04] at hle; linarith
      exact_mod_cast h5
    unfold hcN
    rw [if_pos hcond]
    omega
  · rw [min_eq_right hle]
    have e2 : (w : ℚ) * 0.4 / 2 = ((w : ℕ) : ℚ) / ((5 : ℕ) : ℚ) := by
      rw [h04]; push_cast; ring
    rw [e2, Rat.floor_natCast_div_natCast]
    have hcond : 2 * w ≤ 5 * h := by
      have h5 : (2 : ℚ) * w ≤ 5 * h := by rw [h04] at hle; linarith
      exact_mod_cast h5
    unfold hcN
    split <;> omega

theorem hcN_le_half_w (w h : ℕ) : hcN w h ≤ w / 2 := by
  unfold hcN
  split <;> omega

theorem hcN_le_half_h (w h : ℕ) : hcN w h ≤ h / 2 := by
  unfold hcN
  split <;> omega

example : hcN 800 400 = 160 := by decide
example : hcN 100 40 = 20 := by decide

theorem pyInt_nat_div (n d : ℕ) :
    pyInt (((n : ℕ) : ℚ) / ((d : ℕ) : ℚ)) = ((n : ℕ) : ℤ) / ((d : ℕ) : ℤ) := by
  rw [pyInt_of_nonneg (by positivity), Rat.floor_natCast_div_natCast]

theorem initBox_left (w h : ℕ) :
    (initBox w h).left = ((w / 2 : ℕ) : ℤ) - (hcN w h : ℤ) := by
  unfold initBox center_x
  dsimp only
  rw [half_crop_eq]
  omega

theorem initBox_right (w h : ℕ) :
    (initBox w h).right = ((w / 2 : ℕ) : ℤ) + (hcN w h : ℤ) := by
  unfold initBox center_x
  dsimp only
  rw [half_crop_eq]
  omega

theorem initBox_top (w h : ℕ) :
    (initBox w h).top = (((10 * (h / 2) - 9 * hcN w h) / 10 : ℕ) : ℤ) := by
  have hc9 : 9 * hcN w h ≤ 10 * (h / 2) := by
    have := hcN_le_half_h w h
    omega
  unfold initBox center_y
  dsimp only
  rw [half_crop_eq]
  have harg : (((h : ℤ) / 2 : ℤ) : ℚ) - (((hcN w h : ℕ) : ℤ) : ℚ) * 0.9
      = ((10 * (h / 2) - 9 * hcN w h : ℕ) : ℚ) / ((10 : ℕ) : ℚ) := by
    have hcy : ((h : ℤ) / 2 : ℤ) = ((h / 2 : ℕ) : ℤ) := by omega
    have h09 : (0.9 : ℚ) = 9 / 10 := by norm_num
    rw [hcy, h09, Nat.cast_sub hc9]
    have e1 : (((h / 2 : ℕ) : ℤ) : ℚ) = ((h / 2 : ℕ) : ℚ) := by exact_mod_cast rfl
    have e2 : (((hcN w h : ℕ) : ℤ) : ℚ) = ((hcN w h : ℕ) : ℚ) := by exact_mod_cast rfl
    rw [e1, e2]
    push_cast
    ring
  rw [harg, pyInt_nat_div]
  omega

theorem initBox_bottom (w h : ℕ) :
    (initBox w h).bottom = (((10 * (h / 2) + 11 * hcN w h) / 10 : ℕ) : ℤ) := by
  unfold initBox center_y
  dsimp only
  rw [half_crop_eq]
  have harg : (((h : ℤ) / 2 : ℤ) : ℚ) + (((hcN w h : ℕ) : ℤ) : ℚ) * 1.1
      = ((10 * (h / 2) + 11 * hcN w h : ℕ) : ℚ) / ((10 : ℕ) : ℚ) := by
    have hcy : ((h : ℤ) / 2 : ℤ) = ((h / 2 : ℕ) : ℤ) := by omega
    have h11 : (1.1 : ℚ) = 11 / 10 := by norm_num
    rw [hcy, h11]
    have e1 : (((h / 2 : ℕ) : ℤ) : ℚ) = ((h / 2 : ℕ) : ℚ) := by exact_mod_cast rfl
    have e2 : (((hcN w h : ℕ) : ℤ) : ℚ) = ((hcN w h : ℕ) : ℚ) := by exact_mod_cast rfl
    rw [e1, e2]
    push_cast
    ring
  rw [harg, pyInt_nat_div]
  omega

theorem initBox_dims (w h : ℕ) :
    (initBox w h).right - (initBox w h).left = 2 * (hcN w h : ℤ) ∧
    (initBox w h).bottom - (initBox w h).top = 2 * (hcN w h : ℤ) := by
  rw [initBox_left, initBox_right, initBox_top, initBox_bottom]
  have := hcN_le_half_h w h
  constructor
  · ring
  · omega

theorem makeSquare_initBox (w h : ℕ) : makeSquare (initBox w h) = initBox w h := by
  obtain ⟨h1, h2⟩ := initBox_dims w h
  simp only [makeSquare]
  rw [h1, h2]
  simp

theorem cropBox_eq (w h : ℕ) :
    cropBox w h =
      { left := ((w / 2 - hcN w h : ℕ) : ℤ)
        top := (((10 * (h / 2) - 9 * hcN w h) / 10 : ℕ) : ℤ)
        right := ((w / 2 + hcN w h : ℕ) : ℤ)
        bottom := ((min h ((10 * (h / 2) + 11 * hcN w h) / 10) : ℕ) : ℤ) } := by
  unfold cropBox clampBox
  rw [makeSquare_initBox]
  rw [initBox_left, initBox_top, initBox_right, initBox_bottom]
  have h1 := hcN_le_half_w w h
  have h2 := hcN_le_half_h w h
  simp only [Box.mk.injEq]
  refine ⟨by omega, by omega, by omega, by omega⟩

theorem Box.ext' {a b : Box} (h1 : a.left = b.left) (h2 : a.top = b.top)
    (h3 : a.right = b.right) (h4 : a.bottom = b.bottom) : a = b := by
  cases a
  cases b
  simp_all

theorem muldiv255_mask255 : ∀ x < 256, muldiv255 x 255 = x := by decide

theorem muldiv255_right_zero (x : ℕ) : muldiv255 x 0 = 0 := by
  simp [muldiv255]

theorem blendChannel_mask255 {s : ℕ} (hs : s ≤ 255) (d : ℕ) :
    blendChannel 255 d s = s := by
  unfold blendChannel
  rw [Nat.sub_self, muldiv255_right_zero, muldiv255_mask255 s (by omega)]
  omega

theorem blendPix_mask255 (d p : RGBA) (hr : p.r ≤ 255) (hg : p.g ≤ 255)
    (hb : p.b ≤ 255) (ha : p.a = 255) : blendPix p.a d p = p := by
  obtain ⟨pr, pg, pb, pa⟩ := p
  simp only at hr hg hb ha
  subst ha
  simp only [blendPix, RGBA.mk.injEq]
  exact ⟨blendChannel_mask255 hr _, blendChannel_mask255 hg _,
    blendChannel_mask255 hb _, blendChannel_mask255 (by omega) _⟩

theorem logo_size_eq (s : ℕ) : logo_size s = ((4 * s / 5 : ℕ) : ℤ) := by
  unfold logo_size padding_percent
  have h08 : (1 : ℚ) - 0.10 * 2 = 4 / 5 := by norm_num
  have harg : (s : ℚ) * ((1 : ℚ) - 0.10 * 2) = ((4 * s : ℕ) : ℚ) / ((5 : ℕ) : ℚ) := by
    rw [h08]
    push_cast
    ring
  rw [harg, pyInt_nat_div]
  omega

theorem offset_eq (s : ℕ) : offset s = (((s - 4 * s / 5) / 2 : ℕ) : ℤ) := by
  unfold offset
  rw [logo_size_eq]
  omega

/-- C4: for every initial crop box (the box computed at lines 36–39 from a
source of dimensions `w × h`), the square-forcing step of lines 41–51 — before
bounds clamping — yields a square region: `right − left = bottom − top`.
In fact the initial box is already square (width and height both equal
`2 * half_crop`), so the step leaves it unchanged. -/
theorem claim_C4_makeSquare_square (w h : ℕ) :
    (makeSquare (initBox w h)).right - (makeSquare (initBox w h)).left
      = (makeSquare (initBox w h)).bottom - (makeSquare (initBox w h)).top := by
  rw [makeSquare_initBox]
  obtain ⟨h1, h2⟩ := initBox_dims w h
  rw [h1, h2]

/-- C9: for every source image with `width ≥ 1` and `height ≥ 1`, the clamped
crop box satisfies `0 ≤ left ≤ right ≤ width` and `0 ≤ top ≤ bottom ≤ height`,
so the crop is applied to a region inside the source image. -/
theorem claim_C9_cropBox_inside (w h : ℕ) (hw : 1 ≤ w) (hh : 1 ≤ h) :
    0 ≤ (cropBox w h).left ∧ (cropBox w h).left ≤ (cropBox w h).right ∧
      (cropBox w h).right ≤ (w : ℤ) ∧
    0 ≤ (cropBox w h).top ∧ (cropBox w h).top ≤ (cropBox w h).bottom ∧
      (cropBox w h).bottom ≤ (h : ℤ) := by
  rw [cropBox_eq]
  have h1 := hcN_le_half_w w h
  have h2 := hcN_le_half_h w h
  dsimp only
  refine ⟨by omega, by omega, by omega, by omega, by omega, by omega⟩

theorem claim_C9_cropBox_inside_witness :
    1 ≤ 800 ∧ 1 ≤ 400 ∧
    (0 ≤ (cropBox 800 400).left ∧ (cropBox 800 400).left ≤ (cropBox 800 400).right ∧
      (cropBox 800 400).right ≤ (800 : ℤ) ∧
    0 ≤ (cropBox 800 400).top ∧ (cropBox 800 400).top ≤ (cropBox 800 400).bottom ∧
      (cropBox 800 400).bottom ≤ (400 : ℤ)) :=
  ⟨by decide, by decide, claim_C9_cropBox_inside 800 400 (by decide) (by decide)⟩

/-- C5: for every source image with positive dimensions, if the computed
(square-forced) crop region exceeds the source bounds, clamping it to the
bounds never produces a region of negative or zero width or height. -/
theorem claim_C5_clamp_positive (w h : ℕ) (hw : 1 ≤ w) (hh : 1 ≤ h)
    (hex : (makeSquare (initBox w h)).left < 0 ∨
           (makeSquare (initBox w h)).top < 0 ∨
           (w : ℤ) < (makeSquare (initBox w h)).right ∨
           (h : ℤ) < (makeSquare (initBox w h)).bottom) :
    0 < (cropBox w h).right - (cropBox w h).left ∧
    0 < (cropBox w h).bottom - (cropBox w h).top := by
  rw [makeSquare_initBox, initBox_left, initBox_top, initBox_right, initBox_bottom] at hex
  rw [cropBox_eq]
  have h1 := hcN_le_half_w w h
  have h2 := hcN_le_half_h w h
  dsimp only
  constructor <;> omega

theorem claim_C5_clamp_positive_witness :
    (40 : ℤ) < (makeSquare (initBox 100 40)).bottom ∧
    (0 < (cropBox 100 40).right - (cropBox 100 40).left ∧
     0 < (cropBox 100 40).bottom - (cropBox 100 40).top) := by
  have hbot : (40 : ℤ) < (makeSquare (initBox 100 40)).bottom := by
    rw [makeSquare_initBox, initBox_bottom]
    decide
  exact ⟨hbot, claim_C5_clamp_positive 100 40 (by decide) (by decide)
    (Or.inr (Or.inr (Or.inr hbot)))⟩

/-- C2: for every configured size `s` (padding fraction 0.10), the resampled
logo raster is exactly `logo_size × logo_size` where
`logo_size = ⌊s * (1 − 2·0.10)⌋`; in particular for `s = 72` the edge is 57
and the logo is centred with margins of 7 (left/top) and 8 (right/bottom)
pixels per side. -/
theorem claim_C2_logo_edge (s : ℕ) (hs : s ∈ ICON_SIZES) (sq : Img) :
    (resize sq (logo_size s).toNat (logo_size s).toNat).width = (logo_size s).toNat ∧
    (resize sq (logo_size s).toNat (logo_size s).toNat).height = (logo_size s).toNat ∧
    logo_size s = ⌊(s : ℚ) * (1 - 2 * (0.10 : ℚ))⌋ ∧
    logo_size 72 = 57 ∧ offset 72 = 7 ∧ (72 : ℤ) - offset 72 - logo_size 72 = 8 := by
  refine ⟨rfl, rfl, ?_, ?_, ?_, ?_⟩
  · rw [logo_size_eq]
    have harg : (s : ℚ) * (1 - 2 * (0.10 : ℚ)) = ((4 * s : ℕ) : ℚ) / ((5 : ℕ) : ℚ) := by
      have h08 : (1 : ℚ) - 2 * 0.10 = 4 / 5 := by norm_num
      rw [h08]
      push_cast
      ring
    rw [harg, Rat.floor_natCast_div_natCast]
    omega
  · rw [logo_size_eq]
    decide
  · rw [offset_eq]
    decide
  · rw [offset_eq, logo_size_eq]
    decide

theorem claim_C2_logo_edge_witness :
    72 ∈ ICON_SIZES ∧
    ((resize (imageNew 1 1 ⟨0, 0, 0, 0⟩) (logo_size 72).toNat (logo_size 72).toNat).width
        = (logo_size 72).toNat ∧
     (resize (imageNew 1 1 ⟨0, 0, 0, 0⟩) (logo_size 72).toNat (logo_size 72).toNat).height
        = (logo_size 72).toNat ∧
     logo_size 72 = ⌊(72 : ℚ) * (1 - 2 * (0.10 : ℚ))⌋ ∧
     logo_size 72 = 57 ∧ offset 72 = 7 ∧ (72 : ℤ) - offset 72 - logo_size 72 = 8) :=
  ⟨by decide, claim_C2_logo_edge 72 (by decide) (imageNew 1 1 ⟨0, 0, 0, 0⟩)⟩

/-- C10: for every size `s` in the configured list, the logo edge
`⌊s · 0.8⌋` satisfies `1 ≤ edge < s`, the centring offset `(s − edge) // 2` is
non-negative, and offset + edge ≤ s, so the resized logo lies entirely within
the `s × s` icon canvas. -/
theorem claim_C10_logo_within_canvas (s : ℕ) (hs : s ∈ ICON_SIZES) :
    1 ≤ logo_size s ∧ logo_size s < (s : ℤ) ∧ 0 ≤ offset s ∧
    (offset s).toNat + (logo_size s).toNat ≤ s := by
  fin_cases hs <;>
    (rw [logo_size_eq, offset_eq]) <;> decide

theorem claim_C10_logo_within_canvas_witness :
    512 ∈ ICON_SIZES ∧
    (1 ≤ logo_size 512 ∧ logo_size 512 < (512 : ℤ) ∧ 0 ≤ offset 512 ∧
     (offset 512).toNat + (logo_size 512).toNat ≤ 512) :=
  ⟨by decide, claim_C10_logo_within_canvas 512 (by decide)⟩

/-- C1: for every configured size `s`, the produced output icon is exactly
`s × s` pixels and fully opaque: after the RGB flattening step every pixel of
the result carries no transparency (alpha 255 everywhere). -/
theorem claim_C1_icon_size_alpha255 (square : Img) (s : ℕ) (hs : s ∈ ICON_SIZES) :
    (makeIcon square s).width = s ∧ (makeIcon square s).height = s ∧
    ∀ x y : ℕ, ((makeIcon square s).pix x y).a = 255 := by
  refine ⟨rfl, rfl, fun x y => ?_⟩
  simp only [makeIcon, pasteRGB, imageNewRGB]
  split <;> rfl

theorem claim_C1_icon_size_alpha255_witness :
    72 ∈ ICON_SIZES ∧
    ((makeIcon (imageNew 1 1 ⟨0, 0, 0, 0⟩) 72).width = 72 ∧
     (makeIcon (imageNew 1 1 ⟨0, 0, 0, 0⟩) 72).height = 72 ∧
     ∀ x y : ℕ, ((makeIcon (imageNew 1 1 ⟨0, 0, 0, 0⟩) 72).pix x y).a = 255) :=
  ⟨by decide, claim_C1_icon_size_alpha255 (imageNew 1 1 ⟨0, 0, 0, 0⟩) 72 (by decide)⟩

/-- C3: for every cropped raster of dimensions `cw × ch`, the crop-then-square
padding step yields a square raster of edge `max cw ch`; the cropped raster is
pasted centred (the two margins on each axis differ by at most one pixel) onto
a fully transparent canvas: every pixel outside the pasted region is fully
transparent `(0,0,0,0)`, and inside the region an opaque cropped pixel (with
in-range channels) is reproduced exactly. -/
theorem claim_C3_working_square (cr : Img) :
    (squareOf cr).width = max cr.width cr.height ∧
    (squareOf cr).height = max cr.width cr.height ∧
    paste_x cr + cr.width ≤ max_dim cr ∧
    paste_y cr + cr.height ≤ max_dim cr ∧
    paste_x cr ≤ max_dim cr - cr.width - paste_x cr ∧
    max_dim cr - cr.width - paste_x cr ≤ paste_x cr + 1 ∧
    paste_y cr ≤ max_dim cr - cr.height - paste_y cr ∧
    max_dim cr - cr.height - paste_y cr ≤ paste_y cr + 1 ∧
    (∀ x y : ℕ,
      ¬(paste_x cr ≤ x ∧ x < paste_x cr + cr.width ∧
        paste_y cr ≤ y ∧ y < paste_y cr + cr.height) →
      (squareOf cr).pix x y = ⟨0, 0, 0, 0⟩) ∧
    (∀ i j : ℕ, i < cr.width → j < cr.height →
      (cr.pix i j).r ≤ 255 → (cr.pix i j).g ≤ 255 → (cr.pix i j).b ≤ 255 →
      (cr.pix i j).a = 255 →
      (squareOf cr).pix (paste_x cr + i) (paste_y cr + j) = cr.pix i j) := by
  have hxw : paste_x cr + cr.width ≤ max_dim cr := by
    have : cr.width ≤ max_dim cr := le_max_left _ _
    unfold paste_x
    omega
  have hyh : paste_y cr + cr.height ≤ max_dim cr := by
    have : cr.height ≤ max_dim cr := le_max_right _ _
    unfold paste_y
    omega
  refine ⟨rfl, rfl, hxw, hyh, ?_, ?_, ?_, ?_, ?_, ?_⟩
  · have : cr.width ≤ max_dim cr := le_max_left _ _
    unfold paste_x
    omega
  · unfold paste_x
    omega
  · have : cr.height ≤ max_dim cr := le_max_right _ _
    unfold paste_y
    omega
  · unfold paste_y
    omega
  · intro x y hxy
    simp only [squareOf, paste, imageNew]
    rw [if_neg hxy]
  · intro i j hi hj hr hg hb ha
    simp only [squareOf, paste, imageNew]
    rw [if_pos ⟨Nat.le_add_right _ _, by omega, Nat.le_add_right _ _, by omega⟩]
    have hii : paste_x cr + i - paste_x cr = i := by omega
    have hjj : paste_y cr + j - paste_y cr = j := by omega
    rw [hii, hjj]
    exact blendPix_mask255 _ _ hr hg hb ha

theorem claim_C3_working_square_witness :
    ((squareOf (imageNew 2 1 ⟨1, 2, 3, 255⟩)).width = max 2 1 ∧
     (squareOf (imageNew 2 1 ⟨1, 2, 3, 255⟩)).pix 0 1 = ⟨0, 0, 0, 0⟩ ∧
     (squareOf (imageNew 2 1 ⟨1, 2, 3, 255⟩)).pix 0 0 = ⟨1, 2, 3, 255⟩) := by
  obtain ⟨h1, -, -, -, -, -, -, -, hout, hin⟩ :=
    claim_C3_working_square (imageNew 2 1 ⟨1, 2, 3, 255⟩)
  refine ⟨h1, ?_, ?_⟩
  · exact hout 0 1 (by decide)
  · exact hin 0 0 (by decide) (by decide) (by decide) (by decide) (by decide) (by decide)

/-- C8: the generator writes exactly one PNG per configured size, named
`icon-<W>x<H>.png` with `<W> = <H>` drawn from the configured size list of 8
values `[72, 96, 128, 144, 152, 192, 384, 512]`, all in the fixed output
directory `image`. -/
theorem claim_C8_output_files (src : Img) :
    (create_pwa_icons src).map Prod.fst =
      ["image/icon-72x72.png", "image/icon-96x96.png", "image/icon-128x128.png",
       "image/icon-144x144.png", "image/icon-152x152.png", "image/icon-192x192.png",
       "image/icon-384x384.png", "image/icon-512x512.png"] ∧
    (create_pwa_icons src).length = ICON_SIZES.length ∧
    ICON_SIZES = [72, 96, 128, 144, 152, 192, 384, 512] ∧
    ICON_SIZES.length = 8 ∧
    ((create_pwa_icons src).map Prod.fst).Nodup := by
  have hnames : (create_pwa_icons src).map Prod.fst =
      ["image/icon-72x72.png", "image/icon-96x96.png", "image/icon-128x128.png",
       "image/icon-144x144.png", "image/icon-152x152.png", "image/icon-192x192.png",
       "image/icon-384x384.png", "image/icon-512x512.png"] := rfl
  refine ⟨hnames, rfl, rfl, rfl, ?_⟩
  rw [hnames]
  decide

/-- C6: for an 800×400 source image the initial crop region is 320×320,
centred horizontally and roughly centred vertically (box `(240, 56, 560, 376)`);
clamping/extension keeps it a square of edge 320 ≤ min(800, 400), and the final
Working Square edge equals that value. -/
theorem claim_C6_scenario_800x400 (src : Img)
    (hw : src.width = 800) (hh : src.height = 400) :
    initBox 800 400 = ⟨240, 56, 560, 376⟩ ∧
    (initBox 800 400).right - (initBox 800 400).left = 320 ∧
    (initBox 800 400).bottom - (initBox 800 400).top = 320 ∧
    cropBox 800 400 = ⟨240, 56, 560, 376⟩ ∧
    (cropBox 800 400).right - (cropBox 800 400).left = 320 ∧
    (cropBox 800 400).right - (cropBox 800 400).left ≤ min (800 : ℤ) 400 ∧
    (squareOf (cropped src)).width = 320 ∧
    (squareOf (cropped src)).height = 320 := by
  have hib : initBox 800 400 = ⟨240, 56, 560, 376⟩ := by
    apply Box.ext'
    · rw [initBox_left]
      decide
    · rw [initBox_top]
      decide
    · rw [initBox_right]
      decide
    · rw [initBox_bottom]
      decide
  have hcb : cropBox 800 400 = ⟨240, 56, 560, 376⟩ := by
    rw [cropBox_eq]
    decide
  have hcw : (cropped src).width = 320 := by
    unfold cropped cropImg
    rw [hw, hh, hcb]
    rfl
  have hch : (cropped src).height = 320 := by
    unfold cropped cropImg
    rw [hw, hh, hcb]
    rfl
  refine ⟨hib, by rw [hib]; decide, by rw [hib]; decide, hcb, by rw [hcb]; decide,
    by rw [hcb]; decide, ?_, ?_⟩
  · show max_dim (cropped src) = 320
    unfold max_dim
    rw [hcw, hch]
    decide
  · show max_dim (cropped src) = 320
    unfold max_dim
    rw [hcw, hch]
    decide

theorem claim_C6_scenario_800x400_witness :
    (imageNew 800 400 ⟨0, 0, 0, 0⟩).width = 800 ∧
    (imageNew 800 400 ⟨0, 0, 0, 0⟩).height = 400 ∧
    (initBox 800 400 = ⟨240, 56, 560, 376⟩ ∧
     (initBox 800 400).right - (initBox 800 400).left = 320 ∧
     (initBox 800 400).bottom - (initBox 800 400).top = 320 ∧
     cropBox 800 400 = ⟨240, 56, 560, 376⟩ ∧
     (cropBox 800 400).right - (cropBox 800 400).left = 320 ∧
     (cropBox 800 400).right - (cropBox 800 400).left ≤ min (800 : ℤ) 400 ∧
     (squareOf (cropped (imageNew 800 400 ⟨0, 0, 0, 0⟩))).width = 320 ∧
     (squareOf (cropped (imageNew 800 400 ⟨0, 0, 0, 0⟩))).height = 320) :=
  ⟨rfl, rfl, claim_C6_scenario_800x400 (imageNew 800 400 ⟨0, 0, 0, 0⟩) rfl rfl⟩

/-- Observable equality of rasters: same dimensions and equal pixel values at
every in-bounds coordinate. -/
def ImgEq (A B : Img) : Prop :=
  A.width = B.width ∧ A.height = B.height ∧
  ∀ x y : ℕ, x < A.width → y < A.height → A.pix x y = B.pix x y

theorem ImgEq.refl (A : Img) : ImgEq A A := ⟨rfl, rfl, fun _ _ _ _ => rfl⟩

theorem ImgEq.pasteCongr {d1 d2 s1 s2 : Img} (hd : ImgEq d1 d2) (hs : ImgEq s1 s2)
    (px py : ℕ) : ImgEq (paste d1 s1 px py) (paste d2 s2 px py) := by
  obtain ⟨hdw, hdh, hdp⟩ := hd
  obtain ⟨hsw, hsh, hsp⟩ := hs
  refine ⟨hdw, hdh, fun x y hx hy => ?_⟩
  simp only [paste] at hx hy ⊢
  rw [← hsw, ← hsh]
  by_cases hcond : px ≤ x ∧ x < px + s1.width ∧ py ≤ y ∧ y < py + s1.height
  · rw [if_pos hcond, if_pos hcond, hdp x y hx hy,
      hsp (x - px) (y - py) (by omega) (by omega)]
  · rw [if_neg hcond, if_neg hcond]
    exact hdp x y hx hy

theorem ImgEq.pasteRGBCongr {d1 d2 s1 s2 : Img} (hd : ImgEq d1 d2) (hs : ImgEq s1 s2)
    (px py : ℕ) : ImgEq (pasteRGB d1 s1 px py) (pasteRGB d2 s2 px py) := by
  obtain ⟨hdw, hdh, hdp⟩ := hd
  obtain ⟨hsw, hsh, hsp⟩ := hs
  refine ⟨hdw, hdh, fun x y hx hy => ?_⟩
  simp only [pasteRGB] at hx hy ⊢
  rw [← hsw, ← hsh]
  by_cases hcond : px ≤ x ∧ x < px + s1.width ∧ py ≤ y ∧ y < py + s1.height
  · rw [if_pos hcond, if_pos hcond, hdp x y hx hy,
      hsp (x - px) (y - py) (by omega) (by omega)]
  · rw [if_neg hcond, if_neg hcond]
    exact hdp x y hx hy

theorem ImgEq.resizeCongr {a b : Img} (hab : ImgEq a b) (hw : 1 ≤ a.width)
    (hh : 1 ≤ a.height) (nw nh : ℕ) : ImgEq (resize a nw nh) (resize b nw nh) := by
  obtain ⟨h1, h2, h3⟩ := hab
  have hb : ∀ W n q : ℕ, 1 ≤ W → q < n → q * W / n < W := by
    intro W n q hW hq
    rw [Nat.div_lt_iff_lt_mul (by omega)]
    calc q * W < n * W := (Nat.mul_lt_mul_right (by omega)).mpr hq
      _ = W * n := Nat.mul_comm _ _
  refine ⟨rfl, rfl, fun x y hx hy => ?_⟩
  simp only [resize] at hx hy ⊢
  rw [← h1, ← h2]
  exact h3 _ _ (hb _ _ _ hw hx) (hb _ _ _ hh hy)

/-- Helper: bounds of the clamped crop box (used by the determinism proof). -/
theorem cropBox_le (w h : ℕ) :
    0 ≤ (cropBox w h).left ∧ (cropBox w h).right ≤ (w : ℤ) ∧
    0 ≤ (cropBox w h).top ∧ (cropBox w h).bottom ≤ (h : ℤ) ∧
    (cropBox w h).left ≤ (cropBox w h).right ∧
    (cropBox w h).top ≤ (cropBox w h).bottom := by
  rw [cropBox_eq]
  have h1 := hcN_le_half_w w h
  have h2 := hcN_le_half_h w h
  dsimp only
  refine ⟨by omega, by omega, by omega, by omega, by omega, by omega⟩

theorem ImgEq.croppedCongr {s1 s2 : Img} (hs : ImgEq s1 s2) :
    ImgEq (cropped s1) (cropped s2) := by
  obtain ⟨h1, h2, h3⟩ := hs
  obtain ⟨b1, b2, b3, b4, b5, b6⟩ := cropBox_le s1.width s1.height
  refine ⟨?_, ?_, ?_⟩
  · simp only [cropped, cropImg, ← h1, ← h2]
  · simp only [cropped, cropImg, ← h1, ← h2]
  · intro x y hx hy
    simp only [cropped, cropImg, ← h1, ← h2] at hx hy ⊢
    apply h3
    · omega
    · omega

theorem ImgEq.squareOfCongr {a b : Img} (hab : ImgEq a b) :
    ImgEq (squareOf a) (squareOf b) := by
  obtain ⟨h1, h2, h3⟩ := hab
  have hm : max_dim a = max_dim b := by
    unfold max_dim
    rw [h1, h2]
  have hx : paste_x a = paste_x b := by
    unfold paste_x
    rw [hm, h1]
  have hy : paste_y a = paste_y b := by
    unfold paste_y
    rw [hm, h2]
  unfold squareOf
  rw [← hm, ← hx, ← hy]
  exact ImgEq.pasteCongr (ImgEq.refl _) ⟨h1, h2, h3⟩ _ _

theorem ImgEq.makeIconCongr {a b : Img} (hab : ImgEq a b) (hw : 1 ≤ a.width)
    (hh : 1 ≤ a.height) (s : ℕ) : ImgEq (makeIcon a s) (makeIcon b s) := by
  unfold makeIcon
  exact ImgEq.pasteRGBCongr (ImgEq.refl _)
    (ImgEq.pasteCongr (ImgEq.refl _) (ImgEq.resizeCongr hab hw hh _ _) _ _) _ _

theorem hcN_pos {w h : ℕ} (hw : 5 ≤ w) (hh : 2 ≤ h) : 1 ≤ hcN w h := by
  unfold hcN
  split <;> omega

theorem cropped_width_pos {src : Img} (hw : 5 ≤ src.width) (hh : 2 ≤ src.height) :
    1 ≤ (cropped src).width := by
  have h1 := hcN_le_half_w src.width src.height
  have h2 := hcN_pos hw hh
  show 1 ≤ ((cropBox src.width src.height).right - (cropBox src.width src.height).left).toNat
  rw [cropBox_eq]
  dsimp only
  omega

/-- C7: the pipeline is a deterministic function of the decoded source raster
and the configuration constants: two observably equal source images (same
dimensions, same in-bounds pixels) yield output lists with identical file
names and observably equal output rasters for every configured size.
(The in-range dimension assumptions ensure every raster the pipeline reads
from is non-empty.) -/
theorem claim_C7_deterministic (src1 src2 : Img) (heq : ImgEq src1 src2)
    (hw : 5 ≤ src1.width) (hh : 2 ≤ src1.height) :
    List.Forall₂ (fun p q => p.1 = q.1 ∧ ImgEq p.2 q.2)
      (create_pwa_icons src1) (create_pwa_icons src2) := by
  have hsq : ImgEq (squareOf (cropped src1)) (squareOf (cropped src2)) :=
    ImgEq.squareOfCongr (ImgEq.croppedCongr heq)
  have hw1 : 1 ≤ (squareOf (cropped src1)).width := by
    show 1 ≤ max_dim (cropped src1)
    have := cropped_width_pos hw hh
    unfold max_dim
    omega
  have hh1 : 1 ≤ (squareOf (cropped src1)).height := by
    show 1 ≤ max_dim (cropped src1)
    have := cropped_width_pos hw hh
    unfold max_dim
    omega
  have hicon : ∀ s : ℕ, ImgEq (makeIcon (squareOf (cropped src1)) s)
      (makeIcon (squareOf (cropped src2)) s) :=
    fun s => ImgEq.makeIconCongr hsq hw1 hh1 s
  unfold create_pwa_icons
  simp only [ICON_SIZES, List.map_cons, List.map_nil]
  exact .cons ⟨rfl, hicon 72⟩ (.cons ⟨rfl, hicon 96⟩ (.cons ⟨rfl, hicon 128⟩
    (.cons ⟨rfl, hicon 144⟩ (.cons ⟨rfl, hicon 152⟩ (.cons ⟨rfl, hicon 192⟩
    (.cons ⟨rfl, hicon 384⟩ (.cons ⟨rfl, hicon 512⟩ .nil)))))))

theorem claim_C7_deterministic_witness :
    ImgEq (imageNew 5 2 ⟨1, 1, 1, 255⟩) (imageNew 5 2 ⟨1, 1, 1, 255⟩) ∧
    5 ≤ (imageNew 5 2 ⟨1, 1, 1, 255⟩).width ∧
    2 ≤ (imageNew 5 2 ⟨1, 1, 1, 255⟩).height ∧
    List.Forall₂ (fun p q => p.1 = q.1 ∧ ImgEq p.2 q.2)
      (create_pwa_icons (imageNew 5 2 ⟨1, 1, 1, 255⟩))
      (create_pwa_icons (imageNew 5 2 ⟨1, 1, 1, 255⟩)) := by
  have h : ImgEq (imageNew 5 2 ⟨1, 1, 1, 255⟩) (imageNew 5 2 ⟨1, 1, 1, 255⟩) :=
    ⟨rfl, rfl, fun _ _ _ _ => rfl⟩
  exact ⟨h, by decide, by decide,
    claim_C7_deterministic _ _ h (by decide) (by decide)⟩

end GenIcons
